import Mathlib

/-!
Shallow embedding of the GPU-driven batching core of the `pengine` renderer
(`penguin-util/src/handle.rs`, `src/mesh.rs`, `src/render_scene/mesh_pass.rs`,
`src/render_scene/mod.rs`, `src/layer/base_render_scene_layer/mod.rs`).

Modelling conventions:
* Rust `Vec<T>` becomes `List T`; `Vec::push` appends at the end, `Vec::pop`
  removes the last element.
* Panicking operations (`Index` on an out-of-range index, `Option::unwrap`,
  `expect`, `panic!`) are modelled with `Option`: a `none` result stands for a
  panic.  Every in-place `v[i] = x` in the source is preceded (in the same
  model function) by a successful read of the same index, so the out-of-range
  no-op of `List.set` is unreachable.
* Machine integers (`u32`, `u64`, `usize`) are modelled as `Nat`.  All ids in
  the program are indices of `Vec`s, and none of the verified claims depends
  on wrap-around behaviour, so no `% 2 ^ w` reductions are needed.
* `f32` values (matrix/vector entries) are carried completely opaquely by the
  modelled code — no arithmetic is ever performed on them — so `Rat` stands in
  for `f32` as an inert payload type.
* Rust's `slice::sort_by` is a stable sort; it is modelled by `List.mergeSort`
  (also stable) with the comparison `a.sort_key <= b.sort_key`.
-/

/-- glam/macaw `Vec4` (payload only; no arithmetic is modelled). -/
structure Vec4 where
  x : Rat
  y : Rat
  z : Rat
  w : Rat
deriving DecidableEq, Repr

/-- glam/macaw `Mat4`: four column vectors (payload only). -/
structure Mat4 where
  x_axis : Vec4
  y_axis : Vec4
  z_axis : Vec4
  w_axis : Vec4
deriving DecidableEq, Repr

/-- glam/macaw `Vec3` (payload only). -/
structure Vec3 where
  x : Rat
  y : Rat
  z : Rat
deriving DecidableEq, Repr

/-- glam/macaw `Vec2` (payload only). -/
structure Vec2 where
  x : Rat
  y : Rat
deriving DecidableEq, Repr

/-- From `penguin-util/src/handle.rs`: typed handle to an index in an array of `T`.
The phantom type parameter mirrors `PhantomData<T>`. -/
structure Handle (α : Type) where
  id : Nat
deriving DecidableEq, Repr

/-- From `penguin-util/src/handle.rs`: wrapper of `Vec<T>` indexed by `Handle<T>`. -/
structure HandleMap (α : Type) where
  inner : List α
deriving DecidableEq, Repr

namespace HandleMap

/-- From `HandleMap::new`. -/
def new : HandleMap α := { inner := [] }

/-- From `HandleMap::push`: appends and returns `Handle::from(self.inner.len() - 1)`
computed after the push. -/
def push (m : HandleMap α) (v : α) : HandleMap α × Handle α :=
  let inner := m.inner ++ [v]
  ({ inner := inner }, { id := inner.length - 1 })

/-- The `Index` impl: `&self.inner[handle.id]`, a panicking read modelled with
`Option`. -/
def get? (m : HandleMap α) (h : Handle α) : Option α :=
  m.inner[h.id]?

/-- The `IndexMut` impl used as an lvalue: `self.inner[handle.id] = v`.  Always
used after a successful `get?` of the same handle, making the out-of-range
no-op of `List.set` unreachable. -/
def set (m : HandleMap α) (h : Handle α) (v : α) : HandleMap α :=
  { inner := m.inner.set h.id v }

/-- From `Deref` to the underlying `Vec` followed by `len()`. -/
def len (m : HandleMap α) : Nat := m.inner.length

end HandleMap

/-- From `src/mesh.rs`: ranges in a vertex array buffer that represent a mesh. -/
structure Mesh where
  first_vertex : Nat
  vertex_count : Nat
  first_index : Nat
  index_count : Nat
deriving DecidableEq, Repr

/-- From `penguin-util/src/raw_gpu_types.rs`: indexed indirect draw command. -/
structure DrawIndexedIndirect where
  index_count : Nat
  instance_count : Nat
  first_index : Nat
  base_vertex : Nat
  first_instance : Nat
deriving DecidableEq, Repr

/-- From `Mesh::create_draw_command`. -/
def Mesh.create_draw_command (m : Mesh) (first_instance instance_count : Nat) :
    DrawIndexedIndirect :=
  { index_count := m.index_count
    instance_count := instance_count
    first_index := m.first_index
    base_vertex := m.first_vertex
    first_instance := first_instance }

/-- From `src/render_scene/mod.rs`: data for an object in the scene. -/
structure RenderObject where
  mesh : Handle Mesh
  transform : Mat4
  draw_command_index : Nat
deriving DecidableEq, Repr

/-- From `src/render_scene/mesh_pass.rs`: `type Material = usize` stub. -/
abbrev Material : Type := Nat

/-- From `src/render_scene/mesh_pass.rs`: material stub carried by a pass object.
`Default` gives `material_h.id = 0`; `PartialEq` compares the handle. -/
structure PassMaterial where
  material_h : Handle Material
deriving DecidableEq, Repr

/-- From `PassMaterial::default()`: the derived `Default` zero-initialises the
handle. -/
def PassMaterial.defaultMat : PassMaterial := { material_h := { id := 0 } }

/-- From `src/render_scene/mesh_pass.rs`: per-pass shadow of a `RenderObject`. -/
structure PassObject where
  pass_material : PassMaterial
  mesh_h : Handle Mesh
  original_render_object : Handle RenderObject
  draw_command_id : Nat
deriving DecidableEq, Repr

/-- From `src/render_scene/mesh_pass.rs`: one non-instanced draw per pass object,
tagged with the mesh+material sort key. -/
structure RenderBatch where
  pass_object_h : Handle PassObject
  sort_key : Nat
deriving DecidableEq, Repr

/-- From `src/render_scene/mesh_pass.rs`: a range in the sorted render batch array
that maps to one instanced indirect draw. -/
structure IndirectBatch where
  mesh_h : Handle Mesh
  pass_material : PassMaterial
  first : Nat
  count : Nat
deriving DecidableEq, Repr

/-- From `src/render_scene/mesh_pass.rs`: state of a mesh pass. -/
structure MeshPass where
  indirect_batches : List IndirectBatch
  sorted_render_batches : List RenderBatch
  objects : HandleMap PassObject
  unbatched_objects : List (Handle RenderObject)
deriving DecidableEq, Repr

namespace MeshPass

/-- From `MeshPass::new`. -/
def new : MeshPass :=
  { indirect_batches := []
    sorted_render_batches := []
    objects := HandleMap.new
    unbatched_objects := [] }

/-- The sort key computed in `update_batches`:
`(mesh_h.id as u64) | ((material_h.id as u64) << 32)`.  All ids originate
as `Vec` indices, far below `2 ^ 32`, so the `u64` arithmetic is exact. -/
def sortKeyOf (p : PassObject) : Nat :=
  p.mesh_h.id ||| (p.pass_material.material_h.id <<< 32)

/-- One iteration of the first block of `update_batches`: turn one unbatched
render object handle into a `PassObject` (pushed into `objects`) and a new
`RenderBatch`.  The `render_objects[render_obj_to_add]` read panics (models as
`none`) on an invalid handle. -/
def addUnbatchedObject (render_objects : HandleMap RenderObject)
    (acc : HandleMap PassObject × List RenderBatch)
    (render_obj_to_add : Handle RenderObject) :
    Option (HandleMap PassObject × List RenderBatch) :=
  (render_objects.get? render_obj_to_add).bind fun render_object =>
    let pass_object : PassObject :=
      { pass_material := PassMaterial.defaultMat
        mesh_h := render_object.mesh
        original_render_object := render_obj_to_add
        draw_command_id := 0 }
    let pushed := acc.1.push pass_object
    let sort_key := sortKeyOf pass_object
    some (pushed.1, acc.2 ++ [{ pass_object_h := pushed.2, sort_key := sort_key }])

/-- The loop of the third block of `update_batches`
(`for (index, &render_batch) in render_batches.iter().enumerate()`), written as
structural recursion over the remaining render batches with the running
`index`.  `objects[render_batch.pass_object_h]` and `last_mut().unwrap()` are
the panics modelled with `Option`. -/
def batchLoop (objects : HandleMap PassObject) (indirect_batches : List IndirectBatch)
    (index : Nat) :
    List RenderBatch → Option (HandleMap PassObject × List IndirectBatch)
  | [] => some (objects, indirect_batches)
  | render_batch :: rest =>
    (objects.get? render_batch.pass_object_h).bind fun pass_object =>
      let mesh_h := pass_object.mesh_h
      let material := pass_object.pass_material
      (indirect_batches.getLast?).bind fun previous =>
        let indirect_batches' :=
          if mesh_h.id = previous.mesh_h.id ∧ material = previous.pass_material then
            indirect_batches.dropLast ++ [{ previous with count := previous.count + 1 }]
          else
            indirect_batches ++
              [{ mesh_h := mesh_h, pass_material := material, first := index, count := 1 }]
        let objects' := objects.set render_batch.pass_object_h
          { pass_object with draw_command_id := indirect_batches'.length - 1 }
        batchLoop objects' indirect_batches' (index + 1) rest

/-- From `MeshPass::update_batches`.  Returns `some (rebuilt, new_pass_state)`;
`none` models a panic. -/
def update_batches (pass : MeshPass) (render_objects : HandleMap RenderObject) :
    Option (Bool × MeshPass) :=
  -- only rebuild if there are new objects to add
  if pass.unbatched_objects.isEmpty then
    some (false, pass)
  else
    -- add new pass objects and create new render batches from them;
    -- `unbatched_objects` is cleared afterwards
    (pass.unbatched_objects.foldlM (addUnbatchedObject render_objects)
        (pass.objects, [])).bind fun acc =>
      let objects := acc.1
      -- append the new render batches and stable-sort the whole array by sort key
      let render_batches :=
        (pass.sorted_render_batches ++ acc.2).mergeSort
          (fun a b => a.sort_key ≤ b.sort_key)
      -- `render_batches[0]` — panicking index
      render_batches.head?.bind fun first_render_batch =>
        (objects.get? first_render_batch.pass_object_h).bind fun first_pass_object =>
          -- `objects[...].draw_command_id = indirect_batches.len()` with the
          -- list still empty, hence 0
          let objects' := objects.set first_render_batch.pass_object_h
            { first_pass_object with draw_command_id := 0 }
          let seed : IndirectBatch :=
            { mesh_h := first_pass_object.mesh_h
              pass_material := first_pass_object.pass_material
              first := 0
              count := 0 }
          (batchLoop objects' [seed] 0 render_batches).bind fun result =>
            some (true,
              { indirect_batches := result.2
                sorted_render_batches := render_batches
                objects := result.1
                unbatched_objects := [] })

end MeshPass

/-- From `src/render_scene/mod.rs`: `RenderObjectDescriptor`.  The GPU-only
`render_bounds` field is unused by the modelled code and omitted. -/
structure RenderObjectDescriptor where
  mesh_id : Nat
  transform : Mat4
  draw_forward_pass : Bool
deriving Repr

/-- CPU-observable state of `RenderScene` (`src/render_scene/mod.rs`): the GPU
buffer handles are modelled by the write operations issued against them. -/
structure RenderScene where
  meshes : List Mesh
  render_objects : HandleMap RenderObject
  render_objects_to_update : List (Handle RenderObject)
  forward_pass : MeshPass
  max_draw_count : Nat
deriving Repr

/-- A `queue.write_buffer` call against the render objects buffer:
byte offset and the `RenderObject` payload. -/
structure BufferWrite where
  offset : Nat
  data : RenderObject
deriving DecidableEq, Repr

/-- From `mem::size_of::<RenderObject>()`: `repr(C)` with a 4-byte `Handle`, a
16-byte-aligned 64-byte `Mat4` and a 4-byte `u32`, padded to alignment 16.
No verified claim depends on this value, only on writes being placed at
`size * handle.id`. -/
def renderObjectByteSize : Nat := 96

namespace RenderScene

/-- From `RenderScene::register_object`.  Panics (`none`) when `desc.mesh_id` names
no mesh; otherwise pushes a `RenderObject`, queues it for the forward pass when
`draw_forward_pass`, and queues it for GPU reupload. -/
def register_object (scene : RenderScene) (desc : RenderObjectDescriptor) :
    Option (RenderScene × Handle RenderObject) :=
  match scene.meshes[desc.mesh_id]? with
  | none => none
  | some _ =>
    let mesh_handle : Handle Mesh := { id := desc.mesh_id }
    let (render_objects, render_object) := scene.render_objects.push
      { mesh := mesh_handle, transform := desc.transform, draw_command_index := 0 }
    let forward_pass :=
      if desc.draw_forward_pass then
        { scene.forward_pass with
            unbatched_objects := scene.forward_pass.unbatched_objects ++ [render_object] }
      else scene.forward_pass
    some ({ scene with
              render_objects := render_objects
              forward_pass := forward_pass
              render_objects_to_update := scene.render_objects_to_update ++ [render_object] },
          render_object)

/-- The per-pass-object body of the `for_each` in `build_batches`: copy
`draw_command_id` into the owning `RenderObject` and queue it for reupload. -/
def assignDrawCommand
    (acc : HandleMap RenderObject × List (Handle RenderObject))
    (pass_object : PassObject) :
    Option (HandleMap RenderObject × List (Handle RenderObject)) := do
  let render_object := pass_object.original_render_object
  let current ← acc.1.get? render_object
  some (acc.1.set render_object
          { current with draw_command_index := pass_object.draw_command_id },
        acc.2 ++ [render_object])

/-- From `RenderScene::build_batches`.  Returns the updated scene and the array of
clear draw commands written wholesale to `draw_commands_buffer` (empty when
`update_batches` reported nothing to rebuild). -/
def build_batches (scene : RenderScene) :
    Option (RenderScene × List DrawIndexedIndirect) := do
  let (rebuilt, forward_pass) ←
    scene.forward_pass.update_batches scene.render_objects
  if rebuilt then do
    -- create a draw call for each unique mesh + material combo
    let indirect_commands ← forward_pass.indirect_batches.mapM
      (fun batch => do
        let mesh ← scene.meshes[batch.mesh_h.id]?
        some (mesh.create_draw_command batch.first 0))
    -- assign draw commands to render objects
    let (render_objects, render_objects_to_update) ←
      forward_pass.objects.inner.foldlM assignDrawCommand
        (scene.render_objects, scene.render_objects_to_update)
    some ({ scene with
              forward_pass := forward_pass
              render_objects := render_objects
              render_objects_to_update := render_objects_to_update
              max_draw_count := indirect_commands.length },
          indirect_commands)
  else
    some ({ scene with forward_pass := forward_pass }, [])

end RenderScene

/-- From `src/layer/base_render_scene_layer/mod.rs`: the `RenderObjects` resource
(the fields the reupload path touches). -/
structure RenderObjects where
  render_objects : HandleMap RenderObject
  render_objects_to_reupload : List (Handle RenderObject)
deriving Repr

namespace RenderObjects

/-- From `RenderObjects::enqueue_model_matrix_update`: write the transform through
the panicking index, then queue the handle for reupload. -/
def enqueue_model_matrix_update (s : RenderObjects)
    (render_object : Handle RenderObject) (model_matrix : Mat4) :
    Option RenderObjects :=
  (s.render_objects.get? render_object).bind fun current =>
    some { s with
             render_objects := s.render_objects.set render_object
               { current with transform := model_matrix }
             render_objects_to_reupload := s.render_objects_to_reupload ++ [render_object] }

/-- The buffer write the drain loop issues for one popped handle: offset
`size_of::<RenderObject>() * handle.id`, payload read from the current object
state. -/
def writeFor (objects : HandleMap RenderObject) (h : Handle RenderObject) :
    Option BufferWrite :=
  (objects.get? h).map (fun data => { offset := renderObjectByteSize * h.id, data := data })

/-- The `while let Some(h) = queue.pop()` loop body applied to the handles in
pop order (`Vec::pop` removes from the end, so the loop visits the reversed
queue). -/
def drainWrites (objects : HandleMap RenderObject) :
    List (Handle RenderObject) → Option (List BufferWrite)
  | [] => some []
  | h :: rest =>
    (writeFor objects h).bind fun write =>
      (drainWrites objects rest).bind fun writes =>
        some (write :: writes)

/-- From `reupload_updated_objects` (same loop as `RenderScene::update`): drains the
reupload queue as a stack, issuing one buffer write per popped handle against
the object's current state.  Returns the drained state and the writes in issue
order. -/
def reupload_updated_objects (s : RenderObjects) :
    Option (RenderObjects × List BufferWrite) :=
  (drainWrites s.render_objects s.render_objects_to_reupload.reverse).bind fun writes =>
    some ({ s with render_objects_to_reupload := [] }, writes)

end RenderObjects

/-- From `src/mesh.rs`: a loaded mesh vertex (payload only). -/
structure MeshVertex where
  position : Vec3
  normal : Vec3
  tex_coords : Vec2
deriving DecidableEq, Repr

/-- From `src/mesh.rs`: mesh data loaded into CPU memory. -/
structure MeshAsset where
  vertices : List MeshVertex
  indices : List Nat
deriving Repr

/-- The flat vertex/index data uploaded as the `VertexArrayBuffer`. -/
structure VertexArrayBufferData where
  vertices : List MeshVertex
  indices : List Nat
deriving Repr

namespace VertexArrayBuffer

/-- The per-asset pass of `build_from_mesh_assets`, threading the
`next_first_vertex` / `next_first_index` accumulators.  The filesystem load of
each named asset is abstracted as its outcome, one `Except` per asset name in
input order; `Except.error` makes the surrounding `.expect` panic (`none`). -/
def buildAux (next_first_vertex next_first_index : Nat) :
    List (Except String MeshAsset) →
      Option (List Mesh × List (List MeshVertex) × List (List Nat))
  | [] => some ([], [], [])
  | Except.error _ :: _ => none
  | Except.ok asset :: rest =>
    let mesh : Mesh :=
      { first_vertex := next_first_vertex
        vertex_count := asset.vertices.length
        first_index := next_first_index
        index_count := asset.indices.length }
    (buildAux (next_first_vertex + asset.vertices.length)
        (next_first_index + asset.indices.length) rest).bind fun rec_result =>
      some (mesh :: rec_result.1, asset.vertices :: rec_result.2.1,
        asset.indices :: rec_result.2.2)

/-- From `VertexArrayBuffer::build_from_mesh_assets`: loads every named asset (here:
consumes the load outcomes in input order), records cumulative offsets, and
concatenates all vertices followed by all indices into one flat buffer. -/
def build_from_mesh_assets (load_results : List (Except String MeshAsset)) :
    Option (VertexArrayBufferData × List Mesh) :=
  (buildAux 0 0 load_results).bind fun r =>
    some ({ vertices := r.2.1.flatten, indices := r.2.2.flatten }, r.1)

end VertexArrayBuffer

/-- Well-formedness of a mesh pass, maintained by the program between calls:
the sorted render batches reference pairwise-distinct, in-range pass objects,
one per pass object.  It holds for `MeshPass.new` and is re-established by
every successful `update_batches`. -/
def MeshPass.Wf (pass : MeshPass) : Prop :=
  (pass.sorted_render_batches.map (fun rb => rb.pass_object_h.id)).Nodup ∧
  (∀ rb ∈ pass.sorted_render_batches, rb.pass_object_h.id < pass.objects.len) ∧
  pass.sorted_render_batches.length = pass.objects.len

instance (pass : MeshPass) : Decidable pass.Wf := by
  unfold MeshPass.Wf
  infer_instance

/-! Concrete scenario data used by the closed claim instances and witnesses. -/

/-- A concrete transform (all-zero matrix). -/
def demoTransform : Mat4 :=
  { x_axis := ⟨0, 0, 0, 0⟩, y_axis := ⟨0, 0, 0, 0⟩
    z_axis := ⟨0, 0, 0, 0⟩, w_axis := ⟨0, 0, 0, 0⟩ }

/-- A second, distinct concrete transform. -/
def demoTransform2 : Mat4 :=
  { x_axis := ⟨1, 0, 0, 0⟩, y_axis := ⟨0, 1, 0, 0⟩
    z_axis := ⟨0, 0, 1, 0⟩, w_axis := ⟨0, 0, 0, 1⟩ }

/-- A render object with the given mesh id. -/
def demoRenderObject (meshId : Nat) : RenderObject :=
  { mesh := { id := meshId }, transform := demoTransform, draw_command_index := 0 }

/-- Five registered render objects with mesh ids `[2, 1, 2, 1, 3]` in
registration order. -/
def demoRenderObjects : HandleMap RenderObject :=
  { inner :=
      [demoRenderObject 2, demoRenderObject 1, demoRenderObject 2,
       demoRenderObject 1, demoRenderObject 3] }

/-- A fresh mesh pass with the five demo objects pending batching. -/
def demoPass : MeshPass :=
  { MeshPass.new with
      unbatched_objects := [⟨0⟩, ⟨1⟩, ⟨2⟩, ⟨3⟩, ⟨4⟩] }

/-- The mesh-pass state `update_batches` produces for `demoPass`. -/
def demoPassResult : MeshPass :=
  { indirect_batches :=
      [{ mesh_h := ⟨1⟩, pass_material := PassMaterial.defaultMat, first := 0, count := 2 },
       { mesh_h := ⟨2⟩, pass_material := PassMaterial.defaultMat, first := 2, count := 2 },
       { mesh_h := ⟨3⟩, pass_material := PassMaterial.defaultMat, first := 4, count := 1 }]
    sorted_render_batches :=
      [{ pass_object_h := ⟨1⟩, sort_key := 1 }, { pass_object_h := ⟨3⟩, sort_key := 1 },
       { pass_object_h := ⟨0⟩, sort_key := 2 }, { pass_object_h := ⟨2⟩, sort_key := 2 },
       { pass_object_h := ⟨4⟩, sort_key := 3 }]
    objects :=
      { inner :=
          [{ pass_material := PassMaterial.defaultMat, mesh_h := ⟨2⟩,
             original_render_object := ⟨0⟩, draw_command_id := 1 },
           { pass_material := PassMaterial.defaultMat, mesh_h := ⟨1⟩,
             original_render_object := ⟨1⟩, draw_command_id := 0 },
           { pass_material := PassMaterial.defaultMat, mesh_h := ⟨2⟩,
             original_render_object := ⟨2⟩, draw_command_id := 1 },
           { pass_material := PassMaterial.defaultMat, mesh_h := ⟨1⟩,
             original_render_object := ⟨3⟩, draw_command_id := 0 },
           { pass_material := PassMaterial.defaultMat, mesh_h := ⟨3⟩,
             original_render_object := ⟨4⟩, draw_command_id := 2 }] }
    unbatched_objects := [] }

/-- Two registry meshes for the end-to-end scenario: mesh 0 with 8 vertices
and 36 indices, mesh 1 following it with 5 vertices and 18 indices. -/
def demoScene : RenderScene :=
  { meshes :=
      [{ first_vertex := 0, vertex_count := 8, first_index := 0, index_count := 36 },
       { first_vertex := 8, vertex_count := 5, first_index := 36, index_count := 18 }]
    render_objects := HandleMap.new
    render_objects_to_update := []
    forward_pass := MeshPass.new
    max_draw_count := 0 }

/-- Descriptor registering a forward-pass object with the given mesh id. -/
def demoDescriptor (meshId : Nat) : RenderObjectDescriptor :=
  { mesh_id := meshId, transform := demoTransform, draw_forward_pass := true }

/-- From `demoScene` after registering three objects with mesh ids `[0, 0, 1]`,
then building batches once. -/
def demoEndToEnd : Option (RenderScene × List DrawIndexedIndirect) := do
  let (s1, _) ← demoScene.register_object (demoDescriptor 0)
  let (s2, _) ← s1.register_object (demoDescriptor 0)
  let (s3, _) ← s2.register_object (demoDescriptor 1)
  s3.build_batches

/-- A concrete mesh vertex. -/
def demoMeshVertex : MeshVertex :=
  { position := ⟨0, 0, 0⟩, normal := ⟨0, 0, 0⟩, tex_coords := ⟨0, 0⟩ }

/-- A concrete mesh asset with 3 vertices and 6 indices. -/
def demoAsset1 : MeshAsset :=
  { vertices := [demoMeshVertex, demoMeshVertex, demoMeshVertex]
    indices := [0, 1, 2, 0, 2, 1] }

/-- A concrete mesh asset with 2 vertices and 3 indices. -/
def demoAsset2 : MeshAsset :=
  { vertices := [demoMeshVertex, demoMeshVertex]
    indices := [0, 1, 0] }

/-- A render-objects resource with two objects and one stale queue entry,
used to witness the reupload claim. -/
def demoReuploadState : RenderObjects :=
  { render_objects := { inner := [demoRenderObject 0, demoRenderObject 1] }
    render_objects_to_reupload := [⟨0⟩] }

/-- Invariant carried through `MeshPass.batchLoop`: after processing the
prefix `done` of the sorted render batches, the accumulated indirect batches
partition positions `0..done.length` into adjacent runs, and every processed
pass object's `draw_command_id` names the run containing its position. -/
structure BatchInv (n₀ : Nat) (done : List RenderBatch)
    (objects : HandleMap PassObject) (batches : List IndirectBatch) : Prop where
  objLen : objects.len = n₀
  nonEmpty : batches ≠ []
  headFirst : ∀ b, batches.head? = some b → b.first = 0
  chain : ∀ j a b, batches[j]? = some a → batches[j + 1]? = some b →
    b.first = a.first + a.count
  lastEnd : ∀ b, batches.getLast? = some b → b.first + b.count = done.length
  adjDiff : ∀ j a b, batches[j]? = some a → batches[j + 1]? = some b →
    ¬(a.mesh_h = b.mesh_h ∧ a.pass_material = b.pass_material)
  covers : ∀ p rb, done[p]? = some rb →
    ∃ po j b, objects.get? rb.pass_object_h = some po ∧
      batches[j]? = some b ∧ b.first ≤ p ∧ p < b.first + b.count ∧
      po.draw_command_id = j

/-! Helper lemmas. -/

/-- Handles are equal exactly when their ids are. -/
lemma handle_eq_iff {α : Type} (g h : Handle α) : g = h ↔ g.id = h.id := by
  cases g
  cases h
  simp

/-- Reading back a handle that was just written. -/
lemma HandleMap.get?_set_self {α : Type} (m : HandleMap α) (h : Handle α) (v w : α)
    (hm : m.get? h = some w) : (m.set h v).get? h = some v := by
  have hlt : h.id < m.inner.length := (List.getElem?_eq_some.mp hm).1
  simp only [HandleMap.get?, HandleMap.set]
  rw [List.getElem?_set_self']
  simp [List.getElem?_eq_getElem, hlt]

/-- Writing one handle leaves every other handle's entry unchanged. -/
lemma HandleMap.get?_set_ne {α : Type} (m : HandleMap α) (h g : Handle α) (v : α)
    (hne : h.id ≠ g.id) : (m.set h v).get? g = m.get? g := by
  simp only [HandleMap.get?, HandleMap.set]
  exact List.getElem?_set_ne hne

/-- Writing through a handle preserves the length. -/
lemma HandleMap.len_set {α : Type} (m : HandleMap α) (h : Handle α) (v : α) :
    (m.set h v).len = m.len := by
  simp [HandleMap.set, HandleMap.len]

/-- A successful read bounds the handle id. -/
lemma HandleMap.get?_some_lt {α : Type} (m : HandleMap α) (h : Handle α) (v : α)
    (hm : m.get? h = some v) : h.id < m.len :=
  (List.getElem?_eq_some.mp hm).1

/-- Evaluation of the batching algorithm on the five demo objects. -/
lemma demo_update_batches_eq :
    demoPass.update_batches demoRenderObjects = some (true, demoPassResult) := by
  simp +decide [demoPass, demoRenderObjects, demoRenderObject, demoTransform, demoPassResult,
    MeshPass.update_batches, MeshPass.new, MeshPass.addUnbatchedObject, MeshPass.batchLoop,
    MeshPass.sortKeyOf, HandleMap.new, HandleMap.push, HandleMap.get?, HandleMap.set,
    PassMaterial.defaultMat, List.mergeSort, List.splitInTwo, List.merge]

/-- With nothing pending, `update_batches` is a no-op returning `false`. -/
lemma update_batches_of_empty (pass : MeshPass) (ro : HandleMap RenderObject)
    (h : pass.unbatched_objects = []) :
    pass.update_batches ro = some (false, pass) := by
  simp [MeshPass.update_batches, h]

/-- Every successful `update_batches` call leaves `unbatched_objects` empty:
the guard path keeps the (already empty) list, the rebuild path clears it. -/
lemma update_batches_clears_unbatched (pass : MeshPass) (ro : HandleMap RenderObject)
    (b : Bool) (pass' : MeshPass) (h : pass.update_batches ro = some (b, pass')) :
    pass'.unbatched_objects = [] := by
  unfold MeshPass.update_batches at h
  by_cases he : pass.unbatched_objects.isEmpty
  · rw [if_pos he] at h
    simp only [Option.some.injEq, Prod.mk.injEq] at h
    obtain ⟨-, rfl⟩ := h
    exact List.isEmpty_iff.mp he
  · rw [if_neg he] at h
    simp only [Option.bind_eq_some, Option.some.injEq, Prod.mk.injEq] at h
    obtain ⟨acc, -, rb₀, -, po₀, -, res, -, -, rfl⟩ := h
    rfl

/-! Claim theorems. -/

/-- C1: for a mesh pass whose unbatched objects have mesh ids [2,1,2,1,3] (in
registration order) and all-default materials, one `update_batches` call
produces exactly 3 indirect batches in ascending mesh-id order: mesh 1 with
count 2, mesh 2 with count 2, mesh 3 with count 1. -/
theorem grouping_correctness_demo :
    (demoPass.update_batches demoRenderObjects).map
        (fun r => (r.1, r.2.indirect_batches.map (fun b => (b.mesh_h.id, b.count)))) =
      some (true, [(1, 2), (2, 2), (3, 1)]) := by
  rw [demo_update_batches_eq]
  decide

/-- C5: calling `update_batches` with `unbatched_objects` empty is a no-op
returning `false`; in particular, a second call right after any successful
call returns `false` and leaves the pass state unchanged. -/
theorem update_batches_noop_rebuild (pass : MeshPass) (ro ro2 : HandleMap RenderObject)
    (b : Bool) (pass' : MeshPass) :
    (pass.unbatched_objects = [] → pass.update_batches ro = some (false, pass)) ∧
    (pass.update_batches ro = some (b, pass') →
      pass'.update_batches ro2 = some (false, pass')) :=
  ⟨fun h => update_batches_of_empty pass ro h,
   fun h => update_batches_of_empty pass' ro2
     (update_batches_clears_unbatched pass ro b pass' h)⟩

/-- Witness for C5: the empty pass is a no-op, and a second call after the
demo rebuild returns `false` with the state unchanged. -/
theorem update_batches_noop_rebuild_witness :
    (MeshPass.new.update_batches demoRenderObjects = some (false, MeshPass.new)) ∧
    (demoPassResult.update_batches demoRenderObjects = some (false, demoPassResult)) :=
  ⟨(update_batches_noop_rebuild MeshPass.new demoRenderObjects demoRenderObjects
      false MeshPass.new).1 rfl,
   (update_batches_noop_rebuild demoPass demoRenderObjects demoRenderObjects
      true demoPassResult).2 demo_update_batches_eq⟩

/-- C6 counterexample: with no render objects in the scene, `update_batches`
does not perform an out-of-bounds access (modelled as `none`): it returns
`false` through the empty-unbatched guard, never reaching the
`render_batches[0]` index. -/
theorem empty_scene_no_oob :
    MeshPass.new.update_batches HandleMap.new ≠ none ∧
    MeshPass.new.update_batches HandleMap.new = some (false, MeshPass.new) := by
  decide

/-- C6 amended: building batches for an empty scene returns `false` via the
guard on `unbatched_objects`, performing no indexing of `render_batches`; the
`render_batches[0]` access is only reached when unbatched objects existed,
which makes `render_batches` non-empty. -/
theorem empty_scene_guarded (ro : HandleMap RenderObject) :
    MeshPass.new.update_batches ro = some (false, MeshPass.new) :=
  update_batches_of_empty MeshPass.new ro rfl

/-- C10: `push` returns a handle whose id is the map length minus one after
the push (equivalently the length before), the pushed value is readable
through the returned handle, and pre-existing handles still read their old
values after the push. -/
theorem handle_map_push_spec (α : Type) (m : HandleMap α) (v : α) :
    ((m.push v).2).id = (m.push v).1.len - 1 ∧
    ((m.push v).2).id = m.len ∧
    (m.push v).1.get? (m.push v).2 = some v ∧
    ∀ g : Handle α, g.id < m.len → (m.push v).1.get? g = m.get? g := by
  refine ⟨?_, ?_, ?_, fun g hg => ?_⟩
  · simp [HandleMap.push, HandleMap.len]
  · simp [HandleMap.push, HandleMap.len]
  · simp [HandleMap.push, HandleMap.get?]
  · simp only [HandleMap.push, HandleMap.get?, HandleMap.len] at *
    exact List.getElem?_append_left hg

/-- Witness for C10 at a concrete map and value. -/
theorem handle_map_push_spec_witness :
    (((⟨[10, 20]⟩ : HandleMap Nat).push 30).2).id = 2 ∧
    ((⟨[10, 20]⟩ : HandleMap Nat).push 30).1.get? ⟨2⟩ = some 30 ∧
    ((1 : Nat) < (⟨[10, 20]⟩ : HandleMap Nat).len ∧
      ((⟨[10, 20]⟩ : HandleMap Nat).push 30).1.get? ⟨1⟩ = some 20) := by
  obtain ⟨h1, h2, h3, h4⟩ := handle_map_push_spec Nat ⟨[10, 20]⟩ 30
  exact ⟨h1.trans (by decide), h3, by decide, (h4 ⟨1⟩ (by decide)).trans (by decide)⟩

/-- C2: starting from an empty scene, registering 3 forward-pass objects with
mesh ids [0,0,1] and building batches once yields 2 indirect batches — mesh 0
with first=0 count=2, then mesh 1 with first=2 count=1 — and writes exactly 2
clear draw commands, each with instance_count 0 and first_instance equal to
the corresponding batch's first field (0 and 2). -/
theorem end_to_end_scenario :
    demoEndToEnd.map (fun r =>
        (r.1.forward_pass.indirect_batches.map (fun b => (b.mesh_h.id, b.first, b.count)),
         r.2.map (fun c => (c.instance_count, c.first_instance)))) =
      some ([(0, 0, 2), (1, 2, 1)], [(0, 0), (0, 2)]) := by
  simp +decide [demoEndToEnd, demoScene, demoDescriptor, demoTransform,
    RenderScene.register_object, RenderScene.build_batches, RenderScene.assignDrawCommand,
    MeshPass.update_batches, MeshPass.new, MeshPass.addUnbatchedObject, MeshPass.batchLoop,
    MeshPass.sortKeyOf, HandleMap.new, HandleMap.push, HandleMap.get?, HandleMap.set,
    PassMaterial.defaultMat, Mesh.create_draw_command,
    List.mergeSort, List.splitInTwo, List.merge]

/-- One step of `batchLoop` preserves `BatchInv`, extending the processed
prefix by the render batch just consumed. -/
lemma batchInv_step (n₀ : Nat) (done : List RenderBatch) (rb : RenderBatch)
    (objs : HandleMap PassObject) (bs : List IndirectBatch)
    (hinv : BatchInv n₀ done objs bs)
    (hfresh : rb.pass_object_h.id ∉ done.map (fun x => x.pass_object_h.id))
    (po : PassObject) (hpo : objs.get? rb.pass_object_h = some po)
    (prev : IndirectBatch) (hprev : bs.getLast? = some prev) :
    BatchInv n₀ (done ++ [rb])
      (objs.set rb.pass_object_h
        { po with draw_command_id :=
            (if po.mesh_h.id = prev.mesh_h.id ∧ po.pass_material = prev.pass_material then
                bs.dropLast ++ [{ prev with count := prev.count + 1 }]
              else
                bs ++ [({ mesh_h := po.mesh_h, pass_material := po.pass_material,
                          first := done.length, count := 1 } : IndirectBatch)]).length - 1 })
      (if po.mesh_h.id = prev.mesh_h.id ∧ po.pass_material = prev.pass_material then
          bs.dropLast ++ [{ prev with count := prev.count + 1 }]
        else
          bs ++ [({ mesh_h := po.mesh_h, pass_material := po.pass_material,
                    first := done.length, count := 1 } : IndirectBatch)]) := by
  have hne : bs ≠ [] := by
    intro hn
    rw [hn] at hprev
    simp at hprev
  have hgl : bs.getLast hne = prev := by
    have hx := List.getLast?_eq_getLast bs hne
    rw [hx] at hprev
    exact Option.some.inj hprev
  obtain ⟨L, rfl⟩ : ∃ L, bs = L ++ [prev] :=
    ⟨bs.dropLast, by rw [← hgl]; exact (List.dropLast_append_getLast hne).symm⟩
  have hlastEnd : prev.first + prev.count = done.length :=
    hinv.lastEnd prev (List.getLast?_concat L)
  by_cases hif : po.mesh_h.id = prev.mesh_h.id ∧ po.pass_material = prev.pass_material
  · -- merge into the last batch
    simp only [if_pos hif, List.dropLast_concat]
    have hlen' : (L ++ [{ prev with count := prev.count + 1 }]).length - 1 = L.length := by
      simp
    refine
      { objLen := ?_, nonEmpty := ?_, headFirst := ?_, chain := ?_, lastEnd := ?_
        adjDiff := ?_, covers := ?_ }
    · rw [HandleMap.len_set]; exact hinv.objLen
    · simp
    · intro b hb
      cases L with
      | nil =>
        simp only [List.nil_append, List.head?_cons, Option.some.injEq] at hb
        subst hb
        exact hinv.headFirst prev (by simp)
      | cons x t =>
        simp only [List.cons_append, List.head?_cons, Option.some.injEq] at hb
        subst hb
        exact hinv.headFirst x (by simp)
    · intro j a b hja hjb
      have hjlt : j + 1 < L.length + 1 := by
        simpa using (List.getElem?_eq_some.mp hjb).1
      rcases Nat.lt_or_ge (j + 1) L.length with hc | hc
      · rw [List.getElem?_append_left (Nat.lt_of_succ_lt hc)] at hja
        rw [List.getElem?_append_left hc] at hjb
        exact hinv.chain j a b
          (by rw [List.getElem?_append_left (Nat.lt_of_succ_lt hc)]; exact hja)
          (by rw [List.getElem?_append_left hc]; exact hjb)
      · have hce : j + 1 = L.length := le_antisymm (Nat.lt_succ_iff.mp hjlt) hc
        have hjL : j < L.length := by omega
        rw [List.getElem?_append_left hjL] at hja
        rw [hce, List.getElem?_concat_length, Option.some.injEq] at hjb
        subst hjb
        have := hinv.chain j a prev
          (by rw [List.getElem?_append_left hjL]; exact hja)
          (by rw [hce, List.getElem?_concat_length])
        simpa using this
    · intro b hb
      rw [List.getLast?_concat, Option.some.injEq] at hb
      subst hb
      simp only [List.length_append, List.length_cons, List.length_nil]
      omega
    · intro j a b hja hjb
      have hjlt : j + 1 < L.length + 1 := by
        simpa using (List.getElem?_eq_some.mp hjb).1
      rcases Nat.lt_or_ge (j + 1) L.length with hc | hc
      · rw [List.getElem?_append_left (Nat.lt_of_succ_lt hc)] at hja
        rw [List.getElem?_append_left hc] at hjb
        exact hinv.adjDiff j a b
          (by rw [List.getElem?_append_left (Nat.lt_of_succ_lt hc)]; exact hja)
          (by rw [List.getElem?_append_left hc]; exact hjb)
      · have hce : j + 1 = L.length := le_antisymm (Nat.lt_succ_iff.mp hjlt) hc
        have hjL : j < L.length := by omega
        rw [List.getElem?_append_left hjL] at hja
        rw [hce, List.getElem?_concat_length, Option.some.injEq] at hjb
        subst hjb
        have := hinv.adjDiff j a prev
          (by rw [List.getElem?_append_left hjL]; exact hja)
          (by rw [hce, List.getElem?_concat_length])
        simpa using this
    · intro p rb₂ hp
      have hplt : p < done.length + 1 := by
        simpa using (List.getElem?_eq_some.mp hp).1
      rcases Nat.lt_or_ge p done.length with hc | hc
      · rw [List.getElem?_append_left hc] at hp
        obtain ⟨po₂, j, bb, hpo₂, hbb, h1, h2, h3⟩ := hinv.covers p rb₂ hp
        have hne2 : rb.pass_object_h.id ≠ rb₂.pass_object_h.id := by
          intro he
          exact hfresh (he ▸ List.mem_map_of_mem _ (List.getElem?_mem hp))
        have hjlt : j < L.length + 1 := by
          simpa using (List.getElem?_eq_some.mp hbb).1
        rcases Nat.lt_or_ge j L.length with hj | hj
        · rw [List.getElem?_append_left hj] at hbb
          exact ⟨po₂, j, bb,
            (HandleMap.get?_set_ne objs rb.pass_object_h rb₂.pass_object_h _ hne2).trans hpo₂,
            by rw [List.getElem?_append_left hj]; exact hbb, h1, h2, h3⟩
        · have hje : j = L.length := by omega
          rw [hje, List.getElem?_concat_length, Option.some.injEq] at hbb
          subst hbb
          refine ⟨po₂, j, { prev with count := prev.count + 1 },
            (HandleMap.get?_set_ne objs rb.pass_object_h rb₂.pass_object_h _ hne2).trans hpo₂,
            by rw [hje, List.getElem?_concat_length], by simpa using h1, ?_, h3⟩
          show p < prev.first + (prev.count + 1)
          omega
      · have hpe : p = done.length := by omega
        rw [hpe, List.getElem?_concat_length, Option.some.injEq] at hp
        subst hp
        refine ⟨_, L.length, { prev with count := prev.count + 1 },
          HandleMap.get?_set_self objs rb.pass_object_h _ po hpo,
          List.getElem?_concat_length L _, ?_, ?_, by simpa using hlen'⟩
        · show prev.first ≤ p
          omega
        · show p < prev.first + (prev.count + 1)
          omega
  · -- start a new batch
    simp only [if_neg hif]
    have hMlast : (L ++ [prev])[(L ++ [prev]).length - 1]? = some prev := by
      rw [← List.getLast?_eq_getElem?]
      exact List.getLast?_concat L
    refine
      { objLen := ?_, nonEmpty := ?_, headFirst := ?_, chain := ?_, lastEnd := ?_
        adjDiff := ?_, covers := ?_ }
    · rw [HandleMap.len_set]; exact hinv.objLen
    · simp
    · intro b hb
      cases L with
      | nil =>
        simp only [List.nil_append, List.cons_append, List.head?_cons,
          Option.some.injEq] at hb
        subst hb
        exact hinv.headFirst prev (by simp)
      | cons x t =>
        simp only [List.cons_append, List.head?_cons, Option.some.injEq] at hb
        subst hb
        exact hinv.headFirst x (by simp)
    · intro j a b hja hjb
      have hjlt : j + 1 < (L ++ [prev]).length + 1 := by
        simpa using (List.getElem?_eq_some.mp hjb).1
      rcases Nat.lt_or_ge (j + 1) (L ++ [prev]).length with hc | hc
      · rw [List.getElem?_append_left (Nat.lt_of_succ_lt hc)] at hja
        rw [List.getElem?_append_left hc] at hjb
        exact hinv.chain j a b hja hjb
      · have hce : j + 1 = (L ++ [prev]).length := by omega
        have hjL : j < (L ++ [prev]).length := by omega
        rw [List.getElem?_append_left hjL] at hja
        rw [hce, List.getElem?_concat_length, Option.some.injEq] at hjb
        subst hjb
        have hja' : a = prev := by
          have : j = (L ++ [prev]).length - 1 := by omega
          rw [this] at hja
          rw [hMlast, Option.some.injEq] at hja
          exact hja.symm
        subst hja'
        simpa using hlastEnd.symm
    · intro b hb
      rw [List.getLast?_concat, Option.some.injEq] at hb
      subst hb
      simp
    · intro j a b hja hjb
      have hjlt : j + 1 < (L ++ [prev]).length + 1 := by
        simpa using (List.getElem?_eq_some.mp hjb).1
      rcases Nat.lt_or_ge (j + 1) (L ++ [prev]).length with hc | hc
      · rw [List.getElem?_append_left (Nat.lt_of_succ_lt hc)] at hja
        rw [List.getElem?_append_left hc] at hjb
        exact hinv.adjDiff j a b hja hjb
      · have hce : j + 1 = (L ++ [prev]).length := by omega
        have hjL : j < (L ++ [prev]).length := by omega
        rw [List.getElem?_append_left hjL] at hja
        rw [hce, List.getElem?_concat_length, Option.some.injEq] at hjb
        subst hjb
        have hja' : a = prev := by
          have hx : j = (L ++ [prev]).length - 1 := by omega
          rw [hx] at hja
          rw [hMlast, Option.some.injEq] at hja
          exact hja.symm
        subst hja'
        intro hcon
        apply hif
        constructor
        · rw [(handle_eq_iff _ _).mp hcon.1.symm]
        · exact hcon.2.symm
    · intro p rb₂ hp
      have hplt : p < done.length + 1 := by
        simpa using (List.getElem?_eq_some.mp hp).1
      rcases Nat.lt_or_ge p done.length with hc | hc
      · rw [List.getElem?_append_left hc] at hp
        obtain ⟨po₂, j, bb, hpo₂, hbb, h1, h2, h3⟩ := hinv.covers p rb₂ hp
        have hne2 : rb.pass_object_h.id ≠ rb₂.pass_object_h.id := by
          intro he
          exact hfresh (he ▸ List.mem_map_of_mem _ (List.getElem?_mem hp))
        have hjlt : j < (L ++ [prev]).length := by
          simpa using (List.getElem?_eq_some.mp hbb).1
        exact ⟨po₂, j, bb,
          (HandleMap.get?_set_ne objs rb.pass_object_h rb₂.pass_object_h _ hne2).trans hpo₂,
          by rw [List.getElem?_append_left hjlt]; exact hbb, h1, h2, h3⟩
      · have hpe : p = done.length := by omega
        rw [hpe, List.getElem?_concat_length, Option.some.injEq] at hp
        subst hp
        refine ⟨_, (L ++ [prev]).length,
          { mesh_h := po.mesh_h, pass_material := po.pass_material,
            first := done.length, count := 1 },
          HandleMap.get?_set_self objs rb.pass_object_h _ po hpo,
          List.getElem?_concat_length _ _, by show done.length ≤ p; omega,
          by show p < done.length + 1; omega, by simp⟩

/-- `batchLoop` carries `BatchInv` from the processed prefix across the whole
remaining list, provided all pass-object handles are pairwise distinct. -/
lemma batchLoop_inv (n₀ : Nat) :
    ∀ (todo done : List RenderBatch) (objs : HandleMap PassObject)
      (bs : List IndirectBatch),
      ((done ++ todo).map (fun x => x.pass_object_h.id)).Nodup →
      BatchInv n₀ done objs bs →
      ∀ res, MeshPass.batchLoop objs bs done.length todo = some res →
      BatchInv n₀ (done ++ todo) res.1 res.2 := by
  intro todo
  induction todo with
  | nil =>
    intro done objs bs hnd hinv res h
    simp only [MeshPass.batchLoop, Option.some.injEq] at h
    subst h
    simpa using hinv
  | cons rb rest ih =>
    intro done objs bs hnd hinv res h
    simp only [MeshPass.batchLoop, Option.bind_eq_some] at h
    obtain ⟨po, hpo, prev, hprev, h⟩ := h
    have hfresh : rb.pass_object_h.id ∉ done.map (fun x => x.pass_object_h.id) := by
      intro hmem
      rw [List.map_append, List.nodup_append] at hnd
      exact (hnd.2.2 hmem) (by simp)
    have hstep := batchInv_step n₀ done rb objs bs hinv hfresh po hpo prev hprev
    have hnd' : (((done ++ [rb]) ++ rest).map (fun x => x.pass_object_h.id)).Nodup := by
      rw [List.append_assoc]
      simpa using hnd
    have hlen : (done ++ [rb]).length = done.length + 1 := by simp
    have hres := ih (done ++ [rb]) _ _ hnd' hstep res (by rw [hlen]; exact h)
    rw [List.append_assoc] at hres
    simpa using hres

/-- Characterisation of the first block of `update_batches`: a successful fold
over the unbatched handles appends one pass object per handle and emits render
batches whose pass-object ids are exactly the freshly pushed indices in
order. -/
lemma addUnbatched_fold (ro : HandleMap RenderObject) :
    ∀ (ubs : List (Handle RenderObject)) (objs : HandleMap PassObject)
      (nbs : List RenderBatch) (res : HandleMap PassObject × List RenderBatch),
      ubs.foldlM (MeshPass.addUnbatchedObject ro) (objs, nbs) = some res →
      res.1.len = objs.len + ubs.length ∧
      res.2.map (fun x => x.pass_object_h.id) =
        nbs.map (fun x => x.pass_object_h.id) ++ List.range' objs.len ubs.length := by
  intro ubs
  induction ubs with
  | nil =>
    intro objs nbs res h
    simp only [List.foldlM_nil, Option.pure_def, Option.some.injEq] at h
    subst h
    simp
  | cons u rest ih =>
    intro objs nbs res h
    rw [List.foldlM_cons] at h
    simp only [MeshPass.addUnbatchedObject, Option.some_bind] at h
    cases hget : ro.get? u with
    | none =>
      rw [hget] at h
      simp at h
    | some robj =>
      rw [hget] at h
      simp only [Option.some_bind] at h
      obtain ⟨h1, h2⟩ := ih _ _ _ h
      constructor
      · rw [h1]
        simp [HandleMap.push, HandleMap.len]
        omega
      · rw [h2]
        simp [HandleMap.push, HandleMap.len, List.range'_succ]

/-- A duplicate-free list of `n` naturals all below `n` contains every natural
below `n`. -/
lemma nodup_lt_complete (ids : List Nat) (n : Nat) (hnd : ids.Nodup)
    (hlt : ∀ i ∈ ids, i < n) (hlen : ids.length = n) :
    ∀ idx, idx < n → idx ∈ ids := by
  intro idx hidx
  have hsub : ids.toFinset ⊆ Finset.range n := by
    intro a ha
    rw [List.mem_toFinset] at ha
    exact Finset.mem_range.mpr (hlt a ha)
  have hcard : ids.toFinset.card = n := by
    rw [List.toFinset_card_of_nodup hnd, hlen]
  have heq : ids.toFinset = Finset.range n :=
    Finset.eq_of_subset_of_card_le hsub (by rw [hcard]; simp)
  rw [← List.mem_toFinset, heq]
  exact Finset.mem_range.mpr hidx

/-- Inversion of a successful rebuilding `update_batches` call: the resulting
pass state satisfies the batch-loop invariant over its whole sorted array, the
length equation holds, and every pass-object index is referenced by some
sorted render batch. -/
lemma update_batches_rebuild (pass : MeshPass) (ro : HandleMap RenderObject)
    (pass' : MeshPass) (hwf : pass.Wf)
    (h : pass.update_batches ro = some (true, pass')) :
    BatchInv pass'.objects.len pass'.sorted_render_batches pass'.objects
      pass'.indirect_batches ∧
    pass'.sorted_render_batches.length = pass'.objects.len ∧
    (∀ idx, idx < pass'.objects.len →
      ∃ (p : Nat) (rb : RenderBatch), pass'.sorted_render_batches[p]? = some rb ∧
        rb.pass_object_h.id = idx) := by
  obtain ⟨hwf1, hwf2, hwf3⟩ := hwf
  unfold MeshPass.update_batches at h
  by_cases he : pass.unbatched_objects.isEmpty
  · rw [if_pos he] at h
    simp at h
  · rw [if_neg he] at h
    simp only [Option.bind_eq_some, Option.some.injEq, Prod.mk.injEq] at h
    obtain ⟨acc, hacc, rb₀, hrb₀, po₀, hpo₀, resL, hloop, -, hpass'⟩ := h
    obtain ⟨hlen1, hids⟩ := addUnbatched_fold ro pass.unbatched_objects
      pass.objects [] (acc.1, acc.2) hacc
    rw [List.map_nil, List.nil_append] at hids
    -- the combined, sorted render-batch array
    have hperm : ((pass.sorted_render_batches ++ acc.2).mergeSort
        (fun a b => a.sort_key ≤ b.sort_key)).Perm
        (pass.sorted_render_batches ++ acc.2) :=
      List.mergeSort_perm _ _
    have hpermIds := hperm.map (fun x => x.pass_object_h.id)
    rw [List.map_append, hids] at hpermIds
    have hndAll : ((pass.sorted_render_batches.map (fun x => x.pass_object_h.id)) ++
        List.range' pass.objects.len pass.unbatched_objects.length).Nodup := by
      refine List.Nodup.append hwf1 (List.nodup_range' _ _) ?_
      intro a ha hb
      obtain ⟨rbx, hrbx, rfl⟩ := List.mem_map.mp ha
      have h1 := hwf2 rbx hrbx
      have h2 := (List.mem_range'_1.mp hb).1
      omega
    have hndL := (hpermIds.nodup_iff).mpr hndAll
    -- seed the loop invariant
    have hinv0 : BatchInv acc.1.len []
        (acc.1.set rb₀.pass_object_h { po₀ with draw_command_id := 0 })
        [{ mesh_h := po₀.mesh_h, pass_material := po₀.pass_material,
           first := 0, count := 0 }] := by
      refine
        { objLen := HandleMap.len_set _ _ _, nonEmpty := by simp
          headFirst := ?_, chain := ?_, lastEnd := ?_, adjDiff := ?_, covers := ?_ }
      · intro b hb
        simp only [List.head?_cons, Option.some.injEq] at hb
        rw [← hb]
      · intro j a b hja hjb
        have := (List.getElem?_eq_some.mp hjb).1
        simp at this
      · intro b hb
        simp only [List.getLast?_singleton, Option.some.injEq] at hb
        rw [← hb]
        simp
      · intro j a b hja hjb
        have := (List.getElem?_eq_some.mp hjb).1
        simp at this
      · intro p rb hp
        simp at hp
    have hloopInv := batchLoop_inv acc.1.len
      ((pass.sorted_render_batches ++ acc.2).mergeSort
        (fun a b => a.sort_key ≤ b.sort_key)) []
      (acc.1.set rb₀.pass_object_h { po₀ with draw_command_id := 0 })
      [{ mesh_h := po₀.mesh_h, pass_material := po₀.pass_material,
         first := 0, count := 0 }]
      (by simpa using hndL) hinv0 resL (by simpa using hloop)
    rw [List.nil_append] at hloopInv
    -- lengths
    have hlenL : ((pass.sorted_render_batches ++ acc.2).mergeSort
        (fun a b => a.sort_key ≤ b.sort_key)).length = acc.1.len := by
      rw [List.length_mergeSort, List.length_append]
      have hacc2len : acc.2.length = pass.unbatched_objects.length := by
        have := congrArg List.length hids
        simpa using this
      rw [hacc2len, hlen1, ← hwf3]
    have hn₀ : resL.1.len = acc.1.len := hloopInv.objLen
    subst hpass'
    refine ⟨?_, ?_, ?_⟩
    · simpa [hn₀] using hloopInv
    · simpa [hn₀] using hlenL
    · intro idx hidx
      replace hidx : idx < acc.1.len := by simpa [hn₀] using hidx
      -- idx is hit by the old ids (complete below the old length) or the new range
      have hmem : idx ∈ (pass.sorted_render_batches.map (fun x => x.pass_object_h.id)) ++
          List.range' pass.objects.len pass.unbatched_objects.length := by
        rcases Nat.lt_or_ge idx pass.objects.len with hlow | hhigh
        · refine List.mem_append_left _
            (nodup_lt_complete _ pass.objects.len
              ((List.nodup_append.mp hndAll).1) ?_ ?_ idx hlow)
          · intro i hi
            obtain ⟨rbx, hrbx, rfl⟩ := List.mem_map.mp hi
            exact hwf2 rbx hrbx
          · rw [List.length_map]
            exact hwf3
        · refine List.mem_append_right _ (List.mem_range'_1.mpr ⟨hhigh, ?_⟩)
          rw [hlen1] at hidx
          omega
      have hmemL : idx ∈ ((pass.sorted_render_batches ++ acc.2).mergeSort
          (fun a b => a.sort_key ≤ b.sort_key)).map (fun x => x.pass_object_h.id) :=
        (hpermIds.mem_iff).mpr hmem
      obtain ⟨rbx, hrbx, hid⟩ := List.mem_map.mp hmemL
      obtain ⟨p, hplt, hpe⟩ := List.mem_iff_getElem.mp hrbx
      refine ⟨p, rbx, ?_, hid⟩
      show ((pass.sorted_render_batches ++ acc.2).mergeSort
          (fun a b => a.sort_key ≤ b.sort_key))[p]? = some rbx
      rw [List.getElem?_eq_getElem hplt, hpe]

/-- Telescoping the chained batch offsets: the counts sum to the distance from
the first batch's offset to the end of the last. -/
lemma chain_counts_sum :
    ∀ (bs : List IndirectBatch) (a z : IndirectBatch),
      bs.head? = some a →
      (∀ j x y, bs[j]? = some x → bs[j + 1]? = some y →
        y.first = x.first + x.count) →
      bs.getLast? = some z →
      a.first + (bs.map (fun b => b.count)).sum = z.first + z.count := by
  intro bs
  induction bs with
  | nil =>
    intro a z ha hchain hz
    simp at ha
  | cons x t ih =>
    intro a z ha hchain hz
    simp only [List.head?_cons, Option.some.injEq] at ha
    subst ha
    cases t with
    | nil =>
      simp only [List.getLast?_singleton, Option.some.injEq] at hz
      subst hz
      simp
    | cons y t2 =>
      have hchain' : ∀ j x' y', (y :: t2)[j]? = some x' →
          (y :: t2)[j + 1]? = some y' → y'.first = x'.first + x'.count := by
        intro j x' y' h1 h2
        exact hchain (j + 1) x' y' (by simpa using h1) (by simpa using h2)
      have hz' : (y :: t2).getLast? = some z := by
        rwa [List.getLast?_cons_cons] at hz
      have hstep : y.first = x.first + x.count :=
        hchain 0 x y (by simp) (by simp)
      have hrec := ih y z rfl hchain' hz'
      simp only [List.map_cons, List.sum_cons] at hrec ⊢
      omega

/-- Under the chained-offset property, a batch strictly later in the list
starts at or after the end of an earlier batch. -/
lemma chain_le (bs : List IndirectBatch)
    (hchain : ∀ j x y, bs[j]? = some x → bs[j + 1]? = some y →
      y.first = x.first + x.count) :
    ∀ (d j : Nat) (x y : IndirectBatch), bs[j]? = some x →
      bs[j + d + 1]? = some y → x.first + x.count ≤ y.first := by
  intro d
  induction d with
  | zero =>
    intro j x y h1 h2
    exact le_of_eq (hchain j x y h1 h2).symm
  | succ d ih =>
    intro j x y h1 h2
    have hlt : j + d + 1 < bs.length := by
      have := (List.getElem?_eq_some.mp h2).1
      omega
    have hc : bs[j + d + 1]? = some (bs[j + d + 1]) := List.getElem?_eq_getElem hlt
    have h3 := ih j x _ h1 hc
    have h4 := hchain (j + d + 1) _ y hc h2
    omega

/-- Under the chained-offset property, the batch ranges are pairwise disjoint:
a position lies in at most one batch's range. -/
lemma chain_unique (bs : List IndirectBatch)
    (hchain : ∀ j x y, bs[j]? = some x → bs[j + 1]? = some y →
      y.first = x.first + x.count)
    (p : Nat) :
    ∀ (j j' : Nat) (x y : IndirectBatch), bs[j]? = some x → bs[j']? = some y →
      x.first ≤ p → p < x.first + x.count → y.first ≤ p →
      p < y.first + y.count → j = j' := by
  intro j j' x y h1 h2 hx1 hx2 hy1 hy2
  rcases Nat.lt_trichotomy j j' with hlt | heq | hgt
  · obtain ⟨d, rfl⟩ : ∃ d, j' = j + d + 1 := ⟨j' - j - 1, by omega⟩
    have := chain_le bs hchain d j x y h1 h2
    omega
  · exact heq
  · obtain ⟨d, rfl⟩ : ∃ d, j = j' + d + 1 := ⟨j - j' - 1, by omega⟩
    have := chain_le bs hchain d j' y x h2 h1
    omega

/-- C3: after every `update_batches` call that returns true (from a
well-formed pass state), the sorted render batch array has exactly one entry
per pass object, and every pass object's `draw_command_id` is a valid index
into `indirect_batches`. -/
theorem batch_completeness (pass : MeshPass) (ro : HandleMap RenderObject)
    (pass' : MeshPass) (hwf : pass.Wf)
    (h : pass.update_batches ro = some (true, pass')) :
    pass'.sorted_render_batches.length = pass'.objects.len ∧
    ∀ po ∈ pass'.objects.inner,
      po.draw_command_id < pass'.indirect_batches.length := by
  obtain ⟨hinv, hlen, hcover⟩ := update_batches_rebuild pass ro pass' hwf h
  refine ⟨hlen, fun po hpo => ?_⟩
  obtain ⟨idx, hidxlt, hidx⟩ := List.mem_iff_getElem.mp hpo
  obtain ⟨p, rb, hp, hid⟩ := hcover idx (by simpa [HandleMap.len] using hidxlt)
  obtain ⟨po₂, j, b, hpo₂, hb, -, -, h3⟩ := hinv.covers p rb hp
  simp only [HandleMap.get?] at hpo₂
  rw [hid, List.getElem?_eq_getElem hidxlt] at hpo₂
  have hpo₂' := Option.some.inj hpo₂
  rw [hidx] at hpo₂'
  subst hpo₂'
  rw [h3]
  exact (List.getElem?_eq_some.mp hb).1

/-- Witness for C3 on the five-object demo scenario. -/
theorem batch_completeness_witness :
    MeshPass.Wf demoPass ∧
    (demoPassResult.sorted_render_batches.length = demoPassResult.objects.len ∧
      ∀ po ∈ demoPassResult.objects.inner,
        po.draw_command_id < demoPassResult.indirect_batches.length) :=
  ⟨by decide,
   batch_completeness demoPass demoRenderObjects demoPassResult (by decide)
     demo_update_batches_eq⟩

/-- C4: after every `update_batches` call that returns true (from a
well-formed pass state), the indirect batches partition the sorted render
batch array into maximal adjacent runs: the first batch starts at 0,
consecutive batches tile the array, the counts sum to its length, adjacent
batches carry different (mesh, material) keys, and each position's pass
object records the unique batch covering that position. -/
theorem batch_partition (pass : MeshPass) (ro : HandleMap RenderObject)
    (pass' : MeshPass) (hwf : pass.Wf)
    (h : pass.update_batches ro = some (true, pass')) :
    (∀ b, pass'.indirect_batches.head? = some b → b.first = 0) ∧
    (∀ j a b, pass'.indirect_batches[j]? = some a →
      pass'.indirect_batches[j + 1]? = some b → b.first = a.first + a.count) ∧
    (pass'.indirect_batches.map (fun b => b.count)).sum =
      pass'.sorted_render_batches.length ∧
    (∀ j a b, pass'.indirect_batches[j]? = some a →
      pass'.indirect_batches[j + 1]? = some b →
      ¬(a.mesh_h = b.mesh_h ∧ a.pass_material = b.pass_material)) ∧
    (∀ p rb, pass'.sorted_render_batches[p]? = some rb →
      ∃ (po : PassObject) (j : Nat) (b : IndirectBatch),
        pass'.objects.get? rb.pass_object_h = some po ∧
        pass'.indirect_batches[j]? = some b ∧
        b.first ≤ p ∧ p < b.first + b.count ∧ po.draw_command_id = j ∧
        (∀ j' b', pass'.indirect_batches[j']? = some b' → b'.first ≤ p →
          p < b'.first + b'.count → j' = j)) := by
  obtain ⟨hinv, hlen, -⟩ := update_batches_rebuild pass ro pass' hwf h
  refine ⟨hinv.headFirst, hinv.chain, ?_, hinv.adjDiff, ?_⟩
  · cases hhd : pass'.indirect_batches.head? with
    | none =>
      exact absurd (List.head?_eq_none_iff.mp hhd) hinv.nonEmpty
    | some a =>
      cases hlast : pass'.indirect_batches.getLast? with
      | none =>
        exact absurd (List.getLast?_eq_none_iff.mp hlast) hinv.nonEmpty
      | some z =>
        have hsum := chain_counts_sum pass'.indirect_batches a z hhd hinv.chain hlast
        have h0 := hinv.headFirst a hhd
        have hend := hinv.lastEnd z hlast
        omega
  · intro p rb hp
    obtain ⟨po, j, b, h1, h2, h3, h4, h5⟩ := hinv.covers p rb hp
    exact ⟨po, j, b, h1, h2, h3, h4, h5, fun j' b' hb' hf1 hf2 =>
      chain_unique pass'.indirect_batches hinv.chain p j' j b' b hb' h2 hf1 hf2 h3 h4⟩

/-- Witness for C4 on the five-object demo scenario. -/
theorem batch_partition_witness :
    MeshPass.Wf demoPass ∧
    ((∀ b, demoPassResult.indirect_batches.head? = some b → b.first = 0) ∧
     (∀ j a b, demoPassResult.indirect_batches[j]? = some a →
       demoPassResult.indirect_batches[j + 1]? = some b →
       b.first = a.first + a.count) ∧
     (demoPassResult.indirect_batches.map (fun b => b.count)).sum =
       demoPassResult.sorted_render_batches.length ∧
     (∀ j a b, demoPassResult.indirect_batches[j]? = some a →
       demoPassResult.indirect_batches[j + 1]? = some b →
       ¬(a.mesh_h = b.mesh_h ∧ a.pass_material = b.pass_material)) ∧
     (∀ p rb, demoPassResult.sorted_render_batches[p]? = some rb →
       ∃ (po : PassObject) (j : Nat) (b : IndirectBatch),
         demoPassResult.objects.get? rb.pass_object_h = some po ∧
         demoPassResult.indirect_batches[j]? = some b ∧
         b.first ≤ p ∧ p < b.first + b.count ∧ po.draw_command_id = j ∧
         (∀ j' b', demoPassResult.indirect_batches[j']? = some b' →
           b'.first ≤ p → p < b'.first + b'.count → j' = j))) :=
  ⟨by decide,
   batch_partition demoPass demoRenderObjects demoPassResult (by decide)
     demo_update_batches_eq⟩

/-- The drain loop of `reupload_updated_objects` succeeds on valid handles and
issues exactly one write per queued handle, in order, each computed from the
current object state. -/
lemma drainWrites_spec (objs : HandleMap RenderObject) :
    ∀ (l : List (Handle RenderObject)),
      (∀ g ∈ l, g.id < objs.len) →
      ∃ ws, RenderObjects.drainWrites objs l = some ws ∧
        ws.length = l.length ∧
        ∀ i : Nat, ws[i]? = l[i]?.bind (RenderObjects.writeFor objs) := by
  intro l
  induction l with
  | nil =>
    intro hv
    exact ⟨[], rfl, rfl, by intro i; simp⟩
  | cons g rest ih =>
    intro hv
    have hg : g.id < objs.len := hv g (List.mem_cons_self g rest)
    have hvv : objs.get? g = some objs.inner[g.id] :=
      List.getElem?_eq_getElem hg
    obtain ⟨ws, hws, hlen, hidx⟩ := ih (fun x hx => hv x (List.mem_cons_of_mem _ hx))
    refine ⟨{ offset := renderObjectByteSize * g.id, data := objs.inner[g.id] } :: ws,
      ?_, by simp [hlen], ?_⟩
    · simp [RenderObjects.drainWrites, RenderObjects.writeFor, hvv, hws]
    · intro i
      cases i with
      | zero => simp [RenderObjects.writeFor, hvv]
      | succ n => simpa using hidx n

/-- C7: after `enqueue_model_matrix_update h M` followed by a drain of the
reupload queue, the drain succeeds, empties the queue, issues the writes in
stack (pop) order each computed from the object state at drain time, the first
write targets byte offset `size_of(RenderObject) * h.id` carrying transform M,
and every write landing at that offset carries the same final data. -/
theorem reupload_correctness (s : RenderObjects) (h : Handle RenderObject)
    (M : Mat4) (obj : RenderObject)
    (hobj : s.render_objects.get? h = some obj)
    (hvalid : ∀ g ∈ s.render_objects_to_reupload, g.id < s.render_objects.len) :
    ∃ (s' s'' : RenderObjects) (writes : List BufferWrite),
      s.enqueue_model_matrix_update h M = some s' ∧
      s'.reupload_updated_objects = some (s'', writes) ∧
      s''.render_objects_to_reupload = [] ∧
      writes.length = s'.render_objects_to_reupload.length ∧
      (∀ i : Nat, writes[i]? =
        s'.render_objects_to_reupload.reverse[i]?.bind
          (RenderObjects.writeFor s'.render_objects)) ∧
      writes.head? = some { offset := renderObjectByteSize * h.id
                            data := { obj with transform := M } } ∧
      (∀ w ∈ writes, w.offset = renderObjectByteSize * h.id →
        w.data = { obj with transform := M }) := by
  have hhlt : h.id < s.render_objects.len := HandleMap.get?_some_lt _ _ _ hobj
  have hset : (s.render_objects.set h { obj with transform := M }).get? h =
      some { obj with transform := M } :=
    HandleMap.get?_set_self _ _ _ _ hobj
  have hrev : (s.render_objects_to_reupload ++ [h]).reverse =
      h :: s.render_objects_to_reupload.reverse := by
    simp
  have hvalid' : ∀ g ∈ (s.render_objects_to_reupload ++ [h]).reverse,
      g.id < (s.render_objects.set h { obj with transform := M }).len := by
    intro g hgmem
    rw [HandleMap.len_set]
    rw [hrev] at hgmem
    rcases List.mem_cons.mp hgmem with rfl | hgmem
    · exact hhlt
    · exact hvalid g (List.mem_reverse.mp hgmem)
  obtain ⟨ws, hws, hlen, hidx⟩ :=
    drainWrites_spec (s.render_objects.set h { obj with transform := M })
      ((s.render_objects_to_reupload ++ [h]).reverse) hvalid'
  refine ⟨{ render_objects := s.render_objects.set h { obj with transform := M }
            render_objects_to_reupload := s.render_objects_to_reupload ++ [h] },
          { render_objects := s.render_objects.set h { obj with transform := M }
            render_objects_to_reupload := [] },
          ws, ?_, ?_, rfl, ?_, hidx, ?_, ?_⟩
  · simp [RenderObjects.enqueue_model_matrix_update, hobj]
  · simp only [RenderObjects.reupload_updated_objects, hws, Option.some_bind]
  · rw [hlen]
    simp
  · rw [List.head?_eq_getElem?, hidx 0, hrev]
    simp [RenderObjects.writeFor, hset]
  · intro w hw hoff
    obtain ⟨i, hi⟩ := List.mem_iff_getElem?.mp hw
    rw [hidx i] at hi
    cases hgi : ((s.render_objects_to_reupload ++ [h]).reverse)[i]? with
    | none => rw [hgi] at hi; simp at hi
    | some g =>
      rw [hgi] at hi
      simp only [Option.some_bind, RenderObjects.writeFor] at hi
      cases hvg : (s.render_objects.set h { obj with transform := M }).get? g with
      | none => rw [hvg] at hi; simp at hi
      | some v =>
        rw [hvg] at hi
        simp only [Option.map_some', Option.some.injEq] at hi
        have hwoff : w.offset = renderObjectByteSize * g.id := by rw [← hi]
        have hgid : g.id = h.id := by
          have : renderObjectByteSize * g.id = renderObjectByteSize * h.id := by
            rw [← hwoff, hoff]
          exact Nat.eq_of_mul_eq_mul_left (by simp [renderObjectByteSize]) this
        have hvg' : (s.render_objects.set h { obj with transform := M }).get? g =
            some { obj with transform := M } := by
          simp only [HandleMap.get?] at hset ⊢
          rw [hgid]
          exact hset
        rw [hvg] at hvg'
        rw [← hi]
        exact Option.some.inj hvg'

/-- Witness for C7: enqueue a transform update for object 1 of the demo
reupload state (whose queue already holds a stale entry for object 0) and
drain. -/
theorem reupload_correctness_witness :
    (demoReuploadState.render_objects.get? ⟨1⟩ = some (demoRenderObject 1)) ∧
    (∀ g ∈ demoReuploadState.render_objects_to_reupload,
      g.id < demoReuploadState.render_objects.len) ∧
    (∃ (s' s'' : RenderObjects) (writes : List BufferWrite),
      demoReuploadState.enqueue_model_matrix_update ⟨1⟩ demoTransform2 = some s' ∧
      s'.reupload_updated_objects = some (s'', writes) ∧
      s''.render_objects_to_reupload = [] ∧
      writes.length = s'.render_objects_to_reupload.length ∧
      (∀ i : Nat, writes[i]? =
        s'.render_objects_to_reupload.reverse[i]?.bind
          (RenderObjects.writeFor s'.render_objects)) ∧
      writes.head? = some { offset := renderObjectByteSize * (⟨1⟩ : Handle RenderObject).id
                            data := { demoRenderObject 1 with transform := demoTransform2 } } ∧
      (∀ w ∈ writes,
        w.offset = renderObjectByteSize * (⟨1⟩ : Handle RenderObject).id →
        w.data = { demoRenderObject 1 with transform := demoTransform2 })) :=
  ⟨rfl, by decide,
   reupload_correctness demoReuploadState ⟨1⟩ demoTransform2 (demoRenderObject 1)
     rfl (by decide)⟩

/-- Characterisation of `buildAux` when every asset load succeeds: it produces
one mesh per asset, in order, with cumulative vertex/index offsets. -/
lemma buildAux_spec (assets : List MeshAsset) :
    ∀ (nv ni : Nat),
      ∃ r, VertexArrayBuffer.buildAux nv ni (assets.map Except.ok) = some r ∧
        r.1.length = assets.length ∧
        ∀ (i : Nat) (asset : MeshAsset), assets[i]? = some asset →
          r.1[i]? = some
            { first_vertex := nv + ((assets.take i).map (fun a => a.vertices.length)).sum
              vertex_count := asset.vertices.length
              first_index := ni + ((assets.take i).map (fun a => a.indices.length)).sum
              index_count := asset.indices.length } := by
  induction assets with
  | nil =>
    intro nv ni
    exact ⟨([], [], []), rfl, rfl, by intro i asset hi; simp at hi⟩
  | cons a rest ih =>
    intro nv ni
    obtain ⟨r, hr, hlen, hspec⟩ := ih (nv + a.vertices.length) (ni + a.indices.length)
    refine ⟨({ first_vertex := nv, vertex_count := a.vertices.length
               first_index := ni, index_count := a.indices.length } :: r.1,
             a.vertices :: r.2.1, a.indices :: r.2.2), ?_, by simp [hlen], ?_⟩
    · simp [VertexArrayBuffer.buildAux, hr]
    · intro i asset hi
      cases i with
      | zero =>
        simp only [List.getElem?_cons_zero, Option.some.injEq] at hi
        subst hi
        simp
      | succ n =>
        simp only [List.getElem?_cons_succ] at hi
        have hrec := hspec n asset hi
        simp only [List.getElem?_cons_succ, hrec, List.take_succ_cons, List.map_cons,
          List.sum_cons, Option.some.injEq, Mesh.mk.injEq]
        exact ⟨Nat.add_assoc _ _ _, trivial, Nat.add_assoc _ _ _, trivial⟩

/-- C8: for assets that all load, `build_from_mesh_assets` returns one mesh
per asset in input order, where mesh i's first_vertex (resp. first_index) is
the sum of the vertex (resp. index) counts of assets 0..i and its own counts
are asset i's. -/
theorem mesh_offset_correctness (assets : List MeshAsset)
    (buf : VertexArrayBufferData) (meshes : List Mesh)
    (hbuild : VertexArrayBuffer.build_from_mesh_assets (assets.map Except.ok) =
      some (buf, meshes))
    (i : Nat) (asset : MeshAsset) (hi : assets[i]? = some asset) :
    meshes.length = assets.length ∧
    meshes[i]? = some
      { first_vertex := ((assets.take i).map (fun a => a.vertices.length)).sum
        vertex_count := asset.vertices.length
        first_index := ((assets.take i).map (fun a => a.indices.length)).sum
        index_count := asset.indices.length } := by
  obtain ⟨r, hr, hlen, hspec⟩ := buildAux_spec assets 0 0
  simp only [VertexArrayBuffer.build_from_mesh_assets, hr, Option.some_bind,
    Option.some.injEq, Prod.mk.injEq] at hbuild
  obtain ⟨-, rfl⟩ := hbuild
  have hrec := hspec i asset hi
  simp only [Nat.zero_add] at hrec
  exact ⟨hlen, hrec⟩

/-- Witness for C8 on two concrete assets (3 vertices/6 indices, then
2 vertices/3 indices). -/
theorem mesh_offset_correctness_witness :
    ∃ (buf : VertexArrayBufferData) (meshes : List Mesh),
      (VertexArrayBuffer.build_from_mesh_assets
          ([demoAsset1, demoAsset2].map Except.ok) = some (buf, meshes)) ∧
      meshes.length = 2 ∧
      meshes[1]? = some { first_vertex := 3, vertex_count := 2
                          first_index := 6, index_count := 3 } := by
  refine ⟨_, _, rfl, ?_, ?_⟩
  · exact (mesh_offset_correctness [demoAsset1, demoAsset2] _ _ rfl 1 demoAsset2 rfl).1
  · exact (mesh_offset_correctness [demoAsset1, demoAsset2] _ _ rfl 1 demoAsset2 rfl).2

/-- A failed load anywhere in the list makes the whole `buildAux` pass fail
(the `expect` panic). -/
lemma buildAux_error (e : String) :
    ∀ (results : List (Except String MeshAsset)) (nv ni : Nat),
      Except.error e ∈ results →
      VertexArrayBuffer.buildAux nv ni results = none := by
  intro results
  induction results with
  | nil =>
    intro nv ni hmem
    simp at hmem
  | cons r rest ih =>
    intro nv ni hmem
    cases r with
    | error e2 => rfl
    | ok asset =>
      rcases List.mem_cons.mp hmem with heq | hmem2
      · exact absurd heq (by simp)
      · have hrec := ih (nv + asset.vertices.length) (ni + asset.indices.length) hmem2
        simp [VertexArrayBuffer.buildAux, hrec]

/-- C9: if any asset fails to parse, `build_from_mesh_assets` fails as a
whole — the failure propagates out (no retry, no partial result) and aborts
initialisation. -/
theorem asset_load_failure_aborts (load_results : List (Except String MeshAsset))
    (e : String) (hmem : Except.error e ∈ load_results) :
    VertexArrayBuffer.build_from_mesh_assets load_results = none := by
  simp [VertexArrayBuffer.build_from_mesh_assets,
    buildAux_error e load_results 0 0 hmem]

/-- Witness for C9: one good asset followed by a failed load. -/
theorem asset_load_failure_aborts_witness :
    (Except.error "missing" ∈
      ([Except.ok demoAsset1, Except.error "missing"] :
        List (Except String MeshAsset))) ∧
    VertexArrayBuffer.build_from_mesh_assets
      [Except.ok demoAsset1, Except.error "missing"] = none :=
  ⟨by simp, asset_load_failure_aborts _ "missing" (by simp)⟩
